import Mathlib

/-!
# url-shortener: a shallow embedding of the short-code allocation and lookup protocol

Two variants are embedded:

* `memorymain/main.go` : two Go maps guarded by a read/write lock;
* `mysqlmain/main.go`  : a table `urls` reached through `database/sql`.

Library calls that are not code of the repository are parameters of the model:
`url.ParseRequestURI` (a function from strings to a parse result), `math/rand`
(a stream of raw draws, `rand.Intn n` being the draw reduced into `[0, n)`),
the JSON decoder (a request is the decoding result of its body) and the database
(a function from the history of issued statements to the result of the last one).
`http.ServeFile` is modelled from the documentation of `net/http`, with the two cases in
which it does not answer from the named file.
-/

namespace UrlShortener

/-! ## Shared declarations -/

/-- The request body `{url}` once decoded. -/
structure ShortenRequest where
  URL : String
  deriving DecidableEq

/-- The success payload `{originalURL, shortURL}`. -/
structure ShortenResponse where
  OriginalURL : String
  ShortURL : String
  deriving DecidableEq

/-- The symbols codes are drawn from (`base62` in both variants). -/
def base62 : String := "0123456789ABCDEFGHIJKLMNOPQRSTUVWXYZabcdefghijklmnopqrstuvwxyz"

/-- Go `len` of a string whose bytes are all ASCII. -/
def len (s : String) : Nat := s.data.length

/-- Length of the codes. -/
def codeLength : Nat := 5

/-- The random source: the raw value behind the i-th call of `rand.Intn`. -/
abbrev RandSource := Nat → Nat

/-- The i-th call `rand.Intn(n)`: a value in `[0, n)`. -/
def Intn (rnd : RandSource) (i n : Nat) : Nat := rnd i % n

/-- Byte indexing `s[i]`; the fallback is for an index out of range, where Go stops. -/
def byteAt (s : String) (i : Nat) : Char := s.data.getD i '0'

/-- The candidate built by one pass of the inner loop, the first draw being number `start`:
`res[i] = base62[rand.Intn(len(base62))]` for `i` in `range codeLength`, then `string(res)`. -/
def candidate (rnd : RandSource) (start : Nat) : String :=
  String.mk ((List.range codeLength).map fun i => byteAt base62 (Intn rnd (start + i) (len base62)))

/-- The two fields of `url.URL` that the validator reads. -/
structure URL where
  Scheme : String
  Host : String
  deriving DecidableEq

/-- The signature of `url.ParseRequestURI`: `none` is a parse error. -/
abbrev Parser := String → Option URL

/-- Validation of a URL: it parses, and has a scheme and a host. -/
def isValidUrl (parseRequestURI : Parser) (urlToValidate : String) : Bool :=
  match parseRequestURI urlToValidate with
  | none => false
  | some u => if u.Scheme = "" ∨ u.Host = "" then false else true

/-- What is handed to `writeJSONResponse` as payload. -/
inductive Payload where
  | error (msg : String)
  | shorten (resp : ShortenResponse)
  deriving DecidableEq

/-- What a handler writes: a JSON body with a status (`writeJSONResponse`), the answer made
from a file on disk (the file-serving part of `http.ServeFile`), a redirect (`http.Redirect`,
or the one `http.ServeFile` sends) or a plain-text error (`http.Error`). -/
inductive Response where
  | json (statusCode : Nat) (payload : Payload)
  | serveFile (path : String)
  | redirect (url : String) (statusCode : Nat)
  | error (msg : String) (statusCode : Nat)
  deriving DecidableEq

def StatusOK : Nat := 200
def StatusCreated : Nat := 201
def StatusMovedPermanently : Nat := 301
def StatusFound : Nat := 302
def StatusBadRequest : Nat := 400
def StatusInternalServerError : Nat := 500

/-- The call `writeJSONResponse(w, statusCode, payload)`. -/
def writeJSONResponse (statusCode : Nat) (payload : Payload) : Response :=
  Response.json statusCode payload

/-- What the redirect handlers read of the request: `r.URL.Path` and
`r.PathValue("code")`. -/
structure Request where
  Path : String
  code : String
  deriving DecidableEq

/-- The request as the route `GET /{code}` hands it to the redirect handler. -/
def routed (code : String) : Request := ⟨"/" ++ code, code⟩

/-- The separators of path elements for `http.ServeFile`: slash and backslash. -/
def isSlashRune (c : Char) : Bool := c = '/' || c = '\\'

/-- The non-empty runs of characters between separators (`strings.FieldsFunc`); `cur` is the
run being read, last character first. -/
def fieldsFunc (isSep : Char → Bool) : List Char → List Char → List (List Char)
  | cur, [] => if cur = [] then [] else [cur.reverse]
  | cur, c :: cs =>
    if isSep c then
      if cur = [] then fieldsFunc isSep [] cs else cur.reverse :: fieldsFunc isSep [] cs
    else fieldsFunc isSep (c :: cur) cs

/-- Some element of the path is `..` (the library function `containsDotDot`, without its
early exit for a path that has no two dots in a row). -/
def containsDotDot (v : String) : Bool :=
  (fieldsFunc isSlashRune [] v.data).contains ['.', '.']

/-- The path ends in `/index.html`. -/
def endsInIndexPage (v : String) : Bool := "/index.html".data.isSuffixOf v.data

/-- The call `http.ServeFile(w, r, name)`, as the documentation of `net/http` has it: a
request whose path has a `..` element is rejected with status 400; a request whose path
ends in `/index.html` is redirected to the same path without the final `index.html`
(Location `./`, status 301); any other request is answered from the named file. -/
def ServeFile (r : Request) (name : String) : Response :=
  if containsDotDot r.Path then Response.error "invalid URL path" StatusBadRequest
  else if endsInIndexPage r.Path then Response.redirect "./" StatusMovedPermanently
  else Response.serveFile name

/-! ## In-memory variant -/

namespace Memory

/-- A Go `map[string]string`. -/
abbrev GoMap := String → Option String

/-- The map made by `make(map[string]string)`. -/
def GoMap.empty : GoMap := fun _ => none

/-- The assignment `m[k] = v`. -/
def GoMap.set (m : GoMap) (k v : String) : GoMap := fun x => if x = k then some v else m x

/-- The two package-level maps. -/
structure Store where
  originalURLToShortCode : GoMap
  shortCodeToOriginalURL : GoMap

/-- The store at program start. -/
def Store.empty : Store := ⟨GoMap.empty, GoMap.empty⟩

def baseURL : String := "http://localhost:8080/"

/-- The loop of `generateUniqueCode`, the next draw being number `drawn`. The Go loop has no
bound; `fuel` bounds the passes of the model, and `none` says no code was returned within them. -/
def generateUniqueCodeFrom (rnd : RandSource) (s : Store) : Nat → Nat → Option String
  | 0, _ => none
  | fuel + 1, drawn =>
    let code := candidate rnd drawn
    match s.shortCodeToOriginalURL code with
    | none => some code
    | some _ => generateUniqueCodeFrom rnd s fuel (drawn + codeLength)

/-- The function `generateUniqueCode`. -/
def generateUniqueCode (fuel : Nat) (rnd : RandSource) (s : Store) : Option String :=
  generateUniqueCodeFrom rnd s fuel 0

/-- The handler `handleShorten`, run alone; `req` is the result of decoding the body
(`none`: the decoder failed). -/
def handleShorten (parseRequestURI : Parser) (fuel : Nat) (rnd : RandSource) (s : Store)
    (req : Option ShortenRequest) : Option (Response × Store) :=
  match req with
  | none => some (writeJSONResponse StatusBadRequest (.error "Invalid JSON payload"), s)
  | some req =>
    if !isValidUrl parseRequestURI req.URL then
      some (writeJSONResponse StatusBadRequest (.error "Invalid URL provided"), s)
    else
      match s.originalURLToShortCode req.URL with
      | some existingShortCode =>
        some (writeJSONResponse StatusOK (.shorten ⟨req.URL, baseURL ++ existingShortCode⟩), s)
      | none =>
        match generateUniqueCode fuel rnd s with
        | none => none
        | some shortCode =>
          let shortenedURL := baseURL ++ shortCode
          some (writeJSONResponse StatusCreated (.shorten ⟨req.URL, shortenedURL⟩),
            { shortCodeToOriginalURL := s.shortCodeToOriginalURL.set shortCode req.URL,
              originalURLToShortCode := s.originalURLToShortCode.set req.URL shortCode })

/-- The handler `handleRedirect`. -/
def handleRedirect (s : Store) (r : Request) : Response × Store :=
  let code := r.code
  match s.shortCodeToOriginalURL code with
  | none =>
    let notFoundPath := "../static/notFound.html"
    (ServeFile r notFoundPath, s)
  | some originalURL => (Response.redirect originalURL StatusFound, s)

/-- One served shorten request: the bound on the generator's passes, the draws it sees and
the decoded body. -/
structure Call where
  fuel : Nat
  rnd : RandSource
  req : Option ShortenRequest

/-- Shorten requests served one after the other; `none` when one of them does not return. -/
def serve (parseRequestURI : Parser) : Store → List Call → Option Store
  | s, [] => some s
  | s, c :: cs =>
    match handleShorten parseRequestURI c.fuel c.rnd s c.req with
    | none => none
    | some (_, s') => serve parseRequestURI s' cs

/-- No two keys of the map hold the same value. -/
def GoMap.Injective (m : GoMap) : Prop :=
  ∀ k₁ k₂ v, m k₁ = some v → m k₂ = some v → k₁ = k₂

/-- Every code stored for a URL leads back to that URL. -/
def Consistent (s : Store) : Prop :=
  ∀ url code, s.originalURLToShortCode url = some code → s.shortCodeToOriginalURL code = some url

/-! ### Two requests at once

Between two lock-protected sections of one request the other request may run. A request
that has passed validation is at one of these points. -/

/-- Where a shorten request for a valid URL stands. -/
inductive Pc where
  /-- before the read-locked lookup `originalURLToShortCode[req.URL]` -/
  | lookup
  /-- in `generateUniqueCode`, before the read-locked check of the candidate whose first
  draw is number `drawn` -/
  | check (drawn : Nat)
  /-- before the write-locked pair of assignments, `shortCode` in hand -/
  | store (shortCode : String)
  /-- the response is written -/
  | done (resp : Response)
  deriving DecidableEq

/-- One lock-protected section of `handleShorten` for `url`, with what follows it up to the
next lock. -/
def stepShorten (rnd : RandSource) (url : String) (s : Store) : Pc → Pc × Store
  | .lookup =>
    match s.originalURLToShortCode url with
    | some existingShortCode =>
      (.done (writeJSONResponse StatusOK (.shorten ⟨url, baseURL ++ existingShortCode⟩)), s)
    | none => (.check 0, s)
  | .check drawn =>
    let code := candidate rnd drawn
    match s.shortCodeToOriginalURL code with
    | none => (.store code, s)
    | some _ => (.check (drawn + codeLength), s)
  | .store shortCode =>
    (.done (writeJSONResponse StatusCreated (.shorten ⟨url, baseURL ++ shortCode⟩)),
      { shortCodeToOriginalURL := s.shortCodeToOriginalURL.set shortCode url,
        originalURLToShortCode := s.originalURLToShortCode.set url shortCode })
  | .done resp => (.done resp, s)

/-- Two requests for the same URL and the store they share. -/
structure Pair where
  store : Store
  first : Pc
  second : Pc

/-- The scheduler lets the first (`true`) or the second (`false`) request take its next
section. -/
def stepPair (rnd₁ rnd₂ : RandSource) (url : String) (p : Pair) (pick : Bool) : Pair :=
  if pick then
    let r := stepShorten rnd₁ url p.store p.first
    { p with store := r.2, first := r.1 }
  else
    let r := stepShorten rnd₂ url p.store p.second
    { p with store := r.2, second := r.1 }

/-- The two requests under a schedule. -/
def runPair (rnd₁ rnd₂ : RandSource) (url : String) (p : Pair) (schedule : List Bool) : Pair :=
  schedule.foldl (stepPair rnd₁ rnd₂ url) p

/-- One request taking `n` sections in a row. -/
def runAlone (rnd : RandSource) (url : String) : Nat → Pc × Store → Pc × Store
  | 0, r => r
  | n + 1, r => runAlone rnd url n (stepShorten rnd url r.2 r.1)

end Memory

/-! ## Persistent variant -/

namespace MySQL

/-- The configuration kept in `App`. -/
structure Config where
  BaseURL : String
  NotFoundPath : String
  IndexPath : String

/-- The four statements sent to the database. -/
inductive Stmt where
  /-- `SELECT original_url FROM urls WHERE short_url = ?` -/
  | selectOriginalURL (code : String)
  /-- `SELECT 1 FROM urls WHERE short_url = ?` -/
  | selectOne (code : String)
  /-- `SELECT short_url FROM urls WHERE original_url = ?` -/
  | selectShortURL (url : String)
  /-- `INSERT INTO urls (original_url, short_url) VALUES (?, ?)` -/
  | insert (originalURL shortURL : String)
  deriving DecidableEq

/-- What `Scan` or `Exec` hands back. -/
inductive DBResult where
  /-- `err == nil`, with the scanned column -/
  | ok (value : String)
  /-- `sql.ErrNoRows` -/
  | errNoRows
  /-- a `*mysql.MySQLError` with this `Number` -/
  | mysqlError (number : Nat)
  /-- any other error -/
  | otherError
  deriving DecidableEq

/-- A behaviour of the database: the result of the last statement of a history. -/
abbrev DB := List Stmt → DBResult

/-- What a handler has done so far: the statements it sent, oldest first, and how many
random draws it took. -/
structure Run where
  issued : List Stmt
  drawn : Nat
  deriving DecidableEq

/-- Send one statement. -/
def issue (db : DB) (st : Run) (q : Stmt) : DBResult × Run :=
  (db (st.issued ++ [q]), { st with issued := st.issued ++ [q] })

def maxAttempts : Nat := 20

/-- The two errors `generateUniqueCodeWithDB` builds. -/
inductive GenError where
  /-- `database error checking code uniqueness` -/
  | checkFailed
  /-- `failed to generate unique code after %d attempts` -/
  | exhausted
  deriving DecidableEq

/-- The body of `for i := range maxAttempts`, `n` passes being left. -/
def generateUniqueCodeWithDBLoop (db : DB) (rnd : RandSource) :
    Nat → Run → (String × Option GenError) × Run
  | 0, st => (("", some .exhausted), st)
  | n + 1, st =>
    let code := candidate rnd st.drawn
    let st := { st with drawn := st.drawn + codeLength }
    match issue db st (.selectOne code) with
    | (.errNoRows, st) => ((code, none), st)
    | (.ok _, st) => generateUniqueCodeWithDBLoop db rnd n st
    | (_, st) => (("", some .checkFailed), st)

/-- The function `generateUniqueCodeWithDB`: the code and the error it returns. -/
def generateUniqueCodeWithDB (db : DB) (rnd : RandSource) (st : Run) :
    (String × Option GenError) × Run :=
  generateUniqueCodeWithDBLoop db rnd maxAttempts st

/-- How the loop `for attempts := 0; attempts < 5; attempts++` is left. -/
inductive LoopExit where
  /-- by a `return`, the response written -/
  | returned (resp : Response)
  /-- by `break` or by its condition, with the value of `shortCode` -/
  | left (shortCode : String)
  deriving DecidableEq

/-- The loop of `handleShortenWithDB`, `n` attempts being left. -/
def insertLoop (db : DB) (rnd : RandSource) (url : String) : Nat → Run → LoopExit × Run
  | 0, st => (.left "", st)
  | n + 1, st =>
    match generateUniqueCodeWithDB db rnd st with
    | ((_, some _), st) =>
      (.returned (writeJSONResponse StatusInternalServerError
        (.error "Failed to generate short URL code")), st)
    | ((newCode, none), st) =>
      match issue db st (.insert url newCode) with
      | (.ok _, st) => (.left newCode, st)
      | (.mysqlError number, st) =>
        if number = 1062 then insertLoop db rnd url n st
        else (.returned (writeJSONResponse StatusInternalServerError
          (.error "Failed to store URL")), st)
      | (_, st) =>
        (.returned (writeJSONResponse StatusInternalServerError
          (.error "Failed to store URL")), st)

/-- The handler `handleShortenWithDB`. -/
def handleShortenWithDB (conf : Config) (parseRequestURI : Parser) (db : DB) (rnd : RandSource)
    (st : Run) (req : Option ShortenRequest) : Response × Run :=
  match req with
  | none => (writeJSONResponse StatusBadRequest (.error "Invalid JSON payload"), st)
  | some req =>
    if !isValidUrl parseRequestURI req.URL then
      (writeJSONResponse StatusBadRequest (.error "Invalid URL provided"), st)
    else
      match issue db st (.selectShortURL req.URL) with
      | (.ok shortCode, st) =>
        (writeJSONResponse StatusCreated (.shorten ⟨req.URL, conf.BaseURL ++ shortCode⟩), st)
      | (.errNoRows, st) =>
        match insertLoop db rnd req.URL 5 st with
        | (.returned resp, st) => (resp, st)
        | (.left shortCode, st) =>
          if shortCode = "" then
            (writeJSONResponse StatusInternalServerError (.error
              "Failed to generate and store unique short URL after multiple attempts"), st)
          else
            (writeJSONResponse StatusCreated (.shorten ⟨req.URL, conf.BaseURL ++ shortCode⟩), st)
      | (_, st) =>
        (writeJSONResponse StatusInternalServerError (.error "Internal server error"), st)

/-- The handler `handleRedirectWithDB`. -/
def handleRedirectWithDB (conf : Config) (db : DB) (st : Run) (r : Request) : Response × Run :=
  let code := r.code
  match issue db st (.selectOriginalURL code) with
  | (.ok redirectUrl, st) => (Response.redirect redirectUrl StatusMovedPermanently, st)
  | (.errNoRows, st) => (ServeFile r conf.NotFoundPath, st)
  | (_, st) =>
    (writeJSONResponse StatusInternalServerError (.error "Internal server error"), st)

/-- The configuration built in `main`. -/
def mainConf : Config :=
  { BaseURL := "http://localhost:8080/",
    NotFoundPath := "../static/notFound.html",
    IndexPath := "../static/index.html" }

/-- The statement is an INSERT. -/
def Stmt.isInsert : Stmt → Bool
  | .insert _ _ => true
  | _ => false

/-- The statement is the existence check of the generator. -/
def Stmt.isSelectOne : Stmt → Bool
  | .selectOne _ => true
  | _ => false

end MySQL

/-! ## Fixtures for evaluating the model -/

/-- A parse function that knows two URLs with scheme and host, one whose host is missing,
and fails on every other string. -/
def sampleParse : Parser := fun s =>
  if s = "http://a.io/x" then some ⟨"http", "a.io"⟩
  else if s = "http://b.io/y" then some ⟨"http", "b.io"⟩
  else if s = "http:///z" then some ⟨"http", ""⟩
  else none

namespace MySQL

/-- The rows of `urls` (original_url, short_url) once a statement is carried out, `short_url`
being a unique key. -/
def applyStmt (rows : List (String × String)) : Stmt → List (String × String)
  | .insert originalURL shortURL =>
    if rows.any (fun r => r.2 = shortURL) then rows else rows ++ [(originalURL, shortURL)]
  | _ => rows

/-- The result of a statement on given rows. -/
def answer (rows : List (String × String)) : Stmt → DBResult
  | .selectOriginalURL code =>
    match rows.find? (fun r => r.2 = code) with
    | some r => .ok r.1
    | none => .errNoRows
  | .selectOne code => if rows.any (fun r => r.2 = code) then .ok "1" else .errNoRows
  | .selectShortURL url =>
    match rows.find? (fun r => r.1 = url) with
    | some r => .ok r.2
    | none => .errNoRows
  | .insert _ shortURL =>
    if rows.any (fun r => r.2 = shortURL) then .mysqlError 1062 else .ok ""

/-- A database nobody else writes to: a table that starts with `rows`. -/
def tableDB (rows : List (String × String)) : DB := fun history =>
  match history.reverse with
  | [] => .otherError
  | q :: earlier => answer (earlier.reverse.foldl applyStmt rows) q

/-- A database in which every code is taken and no URL is stored. -/
def fullDB : DB := fun history =>
  match history.reverse with
  | .selectOne _ :: _ => .ok "1"
  | .insert _ _ :: _ => .mysqlError 1062
  | _ => .errNoRows

/-- A database in which another request claims each checked code just before our INSERT, for
every INSERT up to history length `upTo`; it holds no row beyond those. -/
def racingDB (upTo : Nat) : DB := fun history =>
  match history.reverse with
  | .insert _ _ :: _ => if history.length ≤ upTo then .mysqlError 1062 else .ok ""
  | _ => .errNoRows

/-- The first `n` existence checks of the generator when every one of them is answered with
an existing row, the first draw being number `drawn`. -/
def checks (rnd : RandSource) : Nat → Nat → List Stmt
  | _, 0 => []
  | drawn, n + 1 => .selectOne (candidate rnd drawn) :: checks rnd (drawn + codeLength) n

end MySQL

namespace Memory

/-- A first request for `http://a.io/x`, every draw being 0. -/
def callA : Call := ⟨1, fun _ => 0, some ⟨"http://a.io/x"⟩⟩

/-- A request for `http://b.io/y`: five draws of 0, whose code is taken once `callA` is
served, then draws of 1. -/
def callB : Call := ⟨2, fun i => if i < 5 then 0 else 1, some ⟨"http://b.io/y"⟩⟩

/-- The store once `callA` is served from the empty store. -/
def storeA : Store :=
  { shortCodeToOriginalURL := GoMap.empty.set "00000" "http://a.io/x",
    originalURLToShortCode := GoMap.empty.set "http://a.io/x" "00000" }

/-- The store once `callB` is served after `callA`. -/
def storeAB : Store :=
  { shortCodeToOriginalURL := storeA.shortCodeToOriginalURL.set "11111" "http://b.io/y",
    originalURLToShortCode := storeA.originalURLToShortCode.set "http://b.io/y" "11111" }

end Memory

/-! ## The generator's candidates -/

theorem base62_length : len base62 = 62 := by decide

theorem candidate_length (rnd : RandSource) (start : Nat) :
    (candidate rnd start).length = codeLength := by
  simp [candidate, String.length]

theorem byteAt_base62_mem (rnd : RandSource) (i : Nat) :
    byteAt base62 (Intn rnd i (len base62)) ∈ base62.data := by
  have hlt : Intn rnd i (len base62) < base62.data.length := by
    unfold Intn
    exact Nat.mod_lt _ (by decide)
  unfold byteAt
  rw [List.getD_eq_getElem _ _ hlt]
  exact List.getElem_mem hlt

theorem candidate_mem_base62 (rnd : RandSource) (start : Nat) (ch : Char)
    (h : ch ∈ (candidate rnd start).data) : ch ∈ base62.data := by
  simp only [candidate, List.mem_map] at h
  obtain ⟨i, _, rfl⟩ := h
  exact byteAt_base62_mem rnd _

namespace Memory

/-! ## In-memory variant: sequential requests -/

theorem generateUniqueCodeFrom_some (rnd : RandSource) (s : Store) (fuel drawn : Nat)
    (code : String) (h : generateUniqueCodeFrom rnd s fuel drawn = some code) :
    s.shortCodeToOriginalURL code = none ∧ ∃ k, code = candidate rnd k := by
  induction fuel generalizing drawn with
  | zero => simp [generateUniqueCodeFrom] at h
  | succ n ih =>
    simp only [generateUniqueCodeFrom] at h
    split at h
    · rename_i hnone
      cases h
      exact ⟨hnone, drawn, rfl⟩
    · exact ih _ h

/-- The generator returns as soon as the fuel covers a pass whose candidate is not stored. -/
theorem generateUniqueCodeFrom_returns (rnd : RandSource) (s : Store) (fuel drawn k : Nat)
    (hk : k < fuel)
    (hfresh : s.shortCodeToOriginalURL (candidate rnd (drawn + codeLength * k)) = none) :
    ∃ code, generateUniqueCodeFrom rnd s fuel drawn = some code := by
  induction fuel generalizing drawn k with
  | zero => omega
  | succ n ih =>
    simp only [generateUniqueCodeFrom]
    split
    · exact ⟨_, rfl⟩
    · rename_i v hsome
      cases k with
      | zero =>
        rw [Nat.mul_zero, Nat.add_zero, hsome] at hfresh
        cases hfresh
      | succ j =>
        refine ih (drawn + codeLength) j (by omega) ?_
        rw [Nat.mul_succ] at hfresh
        rw [show drawn + codeLength + codeLength * j = drawn + (codeLength * j + codeLength) by
          omega]
        exact hfresh

/-- A shorten request returns as soon as the fuel covers a pass whose candidate is not
stored. -/
theorem handleShorten_returns (parseRequestURI : Parser) (fuel : Nat) (rnd : RandSource)
    (s : Store) (req : Option ShortenRequest) (k : Nat) (hk : k < fuel)
    (hfresh : s.shortCodeToOriginalURL (candidate rnd (codeLength * k)) = none) :
    ∃ resp s', handleShorten parseRequestURI fuel rnd s req = some (resp, s') := by
  obtain ⟨code, hcode⟩ := generateUniqueCodeFrom_returns rnd s fuel 0 k hk
    (by rw [Nat.zero_add]; exact hfresh)
  unfold handleShorten
  split
  · exact ⟨_, _, rfl⟩
  · split
    · exact ⟨_, _, rfl⟩
    · split
      · exact ⟨_, _, rfl⟩
      · simp only [generateUniqueCode, hcode]
        exact ⟨_, _, rfl⟩

/-- What a returning shorten request did: nothing to the store, or one fresh pair. -/
theorem handleShorten_cases (parseRequestURI : Parser) (fuel : Nat) (rnd : RandSource)
    (s s' : Store) (req : Option ShortenRequest) (resp : Response)
    (h : handleShorten parseRequestURI fuel rnd s req = some (resp, s')) :
    s' = s ∨ ∃ url code, req = some ⟨url⟩ ∧ s.originalURLToShortCode url = none ∧
      s.shortCodeToOriginalURL code = none ∧
      s' = { shortCodeToOriginalURL := s.shortCodeToOriginalURL.set code url,
             originalURLToShortCode := s.originalURLToShortCode.set url code } := by
  unfold handleShorten at h
  split at h
  · cases h; exact Or.inl rfl
  · rename_i r
    split at h
    · cases h; exact Or.inl rfl
    · split at h
      · cases h; exact Or.inl rfl
      · rename_i hnone
        split at h
        · cases h
        · rename_i code hgen
          cases h
          exact Or.inr ⟨r.URL, code, rfl, hnone,
            (generateUniqueCodeFrom_some rnd s fuel 0 code hgen).1, rfl⟩

theorem consistent_empty : Consistent Store.empty := by
  intro url code h
  simp [Store.empty, GoMap.empty] at h

theorem handleShorten_consistent (parseRequestURI : Parser) (fuel : Nat) (rnd : RandSource)
    (s s' : Store) (req : Option ShortenRequest) (resp : Response)
    (h : handleShorten parseRequestURI fuel rnd s req = some (resp, s'))
    (hs : Consistent s) : Consistent s' := by
  rcases handleShorten_cases _ _ _ _ _ _ _ h with rfl | ⟨url, code, -, hu, hc, rfl⟩
  · exact hs
  · intro url' code' h'
    simp only [GoMap.set] at h' ⊢
    by_cases e : url' = url
    · subst e
      simp only [if_true, Option.some.injEq] at h'
      subst h'
      simp
    · simp only [e, if_false] at h'
      have hold := hs url' code' h'
      have hne : code' ≠ code := by
        rintro rfl
        rw [hc] at hold
        cases hold
      simp [hne, hold]

theorem serve_consistent (parseRequestURI : Parser) (calls : List Call) (s s' : Store)
    (h : serve parseRequestURI s calls = some s') (hs : Consistent s) : Consistent s' := by
  induction calls generalizing s with
  | nil =>
    simp only [serve, Option.some.injEq] at h
    exact h ▸ hs
  | cons c cs ih =>
    simp only [serve] at h
    split at h
    · cases h
    · rename_i resp s₁ hstep
      exact ih s₁ h (handleShorten_consistent _ _ _ _ _ _ _ hstep hs)

/-- A stored URL keeps its code through a shorten request. -/
theorem handleShorten_keeps_url (parseRequestURI : Parser) (fuel : Nat) (rnd : RandSource)
    (s s' : Store) (req : Option ShortenRequest) (resp : Response)
    (h : handleShorten parseRequestURI fuel rnd s req = some (resp, s'))
    (url code : String) (hu : s.originalURLToShortCode url = some code) :
    s'.originalURLToShortCode url = some code := by
  rcases handleShorten_cases _ _ _ _ _ _ _ h with rfl | ⟨url', code', -, hnone, -, rfl⟩
  · exact hu
  · have hne : url ≠ url' := by
      rintro rfl
      rw [hnone] at hu
      cases hu
    simp [GoMap.set, hne, hu]

/-- A stored code keeps its URL through a shorten request. -/
theorem handleShorten_keeps_code (parseRequestURI : Parser) (fuel : Nat) (rnd : RandSource)
    (s s' : Store) (req : Option ShortenRequest) (resp : Response)
    (h : handleShorten parseRequestURI fuel rnd s req = some (resp, s'))
    (code url : String) (hc : s.shortCodeToOriginalURL code = some url) :
    s'.shortCodeToOriginalURL code = some url := by
  rcases handleShorten_cases _ _ _ _ _ _ _ h with rfl | ⟨url', code', -, -, hnone, rfl⟩
  · exact hc
  · have hne : code ≠ code' := by
      rintro rfl
      rw [hnone] at hc
      cases hc
    simp [GoMap.set, hne, hc]

theorem serve_keeps_url (parseRequestURI : Parser) (calls : List Call) (s s' : Store)
    (h : serve parseRequestURI s calls = some s')
    (url code : String) (hu : s.originalURLToShortCode url = some code) :
    s'.originalURLToShortCode url = some code := by
  induction calls generalizing s with
  | nil =>
    simp only [serve, Option.some.injEq] at h
    exact h ▸ hu
  | cons c cs ih =>
    simp only [serve] at h
    split at h
    · cases h
    · rename_i resp s₁ hstep
      exact ih s₁ h (handleShorten_keeps_url _ _ _ _ _ _ _ hstep url code hu)

theorem serve_keeps_code (parseRequestURI : Parser) (calls : List Call) (s s' : Store)
    (h : serve parseRequestURI s calls = some s')
    (code url : String) (hc : s.shortCodeToOriginalURL code = some url) :
    s'.shortCodeToOriginalURL code = some url := by
  induction calls generalizing s with
  | nil =>
    simp only [serve, Option.some.injEq] at h
    exact h ▸ hc
  | cons c cs ih =>
    simp only [serve] at h
    split at h
    · cases h
    · rename_i resp s₁ hstep
      exact ih s₁ h (handleShorten_keeps_code _ _ _ _ _ _ _ hstep code url hc)

/-- A returning shorten request for a valid URL answers with a code, and that code is stored
for the URL afterwards, in both maps when the store was consistent. -/
theorem handleShorten_valid (parseRequestURI : Parser) (fuel : Nat) (rnd : RandSource)
    (s s' : Store) (url : String) (resp : Response)
    (hvalid : isValidUrl parseRequestURI url = true)
    (h : handleShorten parseRequestURI fuel rnd s (some ⟨url⟩) = some (resp, s')) :
    ∃ code status, resp = writeJSONResponse status (.shorten ⟨url, baseURL ++ code⟩) ∧
      s'.originalURLToShortCode url = some code ∧
      (Consistent s → s'.shortCodeToOriginalURL code = some url) := by
  simp only [handleShorten, hvalid, Bool.not_true, Bool.false_eq_true, if_false] at h
  split at h
  · rename_i code hex
    cases h
    exact ⟨code, StatusOK, rfl, hex, fun hs => hs url code hex⟩
  · split at h
    · cases h
    · rename_i code hgen
      cases h
      exact ⟨code, StatusCreated, rfl, by simp [GoMap.set], fun _ => by simp [GoMap.set]⟩

/-- A shorten request for a stored valid URL returns the stored code with status 200 and
leaves the store as it is, whatever the fuel and the draws. -/
theorem handleShorten_stored (parseRequestURI : Parser) (fuel : Nat) (rnd : RandSource)
    (s : Store) (url code : String)
    (hvalid : isValidUrl parseRequestURI url = true)
    (hu : s.originalURLToShortCode url = some code) :
    handleShorten parseRequestURI fuel rnd s (some ⟨url⟩) =
      some (writeJSONResponse StatusOK (.shorten ⟨url, baseURL ++ code⟩), s) := by
  simp [handleShorten, hvalid, hu]

/-- C1 (in-memory, sequential). Once a shorten request for a valid URL has returned, its
response carries a short code, and after any further sequence of served shorten requests
(for other URLs or not) every shorten request for that URL returns: it answers 200 with the
same code and leaves both maps as they are. The store the first request runs on is any
store, in particular one reached from the empty store. -/
theorem shorten_same_url_same_code (parseRequestURI : Parser) (url : String)
    (hvalid : isValidUrl parseRequestURI url = true)
    (s₀ s₁ s₂ : Store) (fuel : Nat) (rnd : RandSource) (resp : Response)
    (h₁ : handleShorten parseRequestURI fuel rnd s₀ (some ⟨url⟩) = some (resp, s₁))
    (between : List Call) (h₂ : serve parseRequestURI s₁ between = some s₂) :
    ∃ code status, resp = writeJSONResponse status (.shorten ⟨url, baseURL ++ code⟩) ∧
      ∀ (fuel' : Nat) (rnd' : RandSource),
        handleShorten parseRequestURI fuel' rnd' s₂ (some ⟨url⟩) =
          some (writeJSONResponse StatusOK (.shorten ⟨url, baseURL ++ code⟩), s₂) := by
  obtain ⟨code, status, hresp, hstored, -⟩ :=
    handleShorten_valid parseRequestURI fuel rnd s₀ s₁ url resp hvalid h₁
  refine ⟨code, status, hresp, fun fuel' rnd' => ?_⟩
  exact handleShorten_stored parseRequestURI fuel' rnd' s₂ url code hvalid
    (serve_keeps_url parseRequestURI between s₁ s₂ h₂ url code hstored)

theorem shorten_same_url_same_code_witness :
    isValidUrl sampleParse "http://a.io/x" = true ∧
    handleShorten sampleParse 1 (fun _ => 0) Store.empty (some ⟨"http://a.io/x"⟩) =
      some (writeJSONResponse StatusCreated
        (.shorten ⟨"http://a.io/x", "http://localhost:8080/00000"⟩), storeA) ∧
    serve sampleParse storeA [callB] = some storeAB ∧
    ∃ code status,
      writeJSONResponse StatusCreated
        (.shorten ⟨"http://a.io/x", "http://localhost:8080/00000"⟩) =
        writeJSONResponse status (.shorten ⟨"http://a.io/x", baseURL ++ code⟩) ∧
      ∀ (fuel' : Nat) (rnd' : RandSource),
        handleShorten sampleParse fuel' rnd' storeAB (some ⟨"http://a.io/x"⟩) =
          some (writeJSONResponse StatusOK (.shorten ⟨"http://a.io/x", baseURL ++ code⟩),
            storeAB) :=
  ⟨by decide, rfl, rfl,
    shorten_same_url_same_code sampleParse "http://a.io/x" (by decide) Store.empty storeA
      storeAB 1 (fun _ => 0) _ rfl [callB] rfl⟩

/-- C2 (in-memory, sequential). In every store reached from the empty store by served shorten
requests, whatever their bodies and draws, `originalURLToShortCode` is injective: no two
distinct URLs hold the same short code. -/
theorem reachable_codes_injective (parseRequestURI : Parser) (calls : List Call) (s : Store)
    (h : serve parseRequestURI Store.empty calls = some s) :
    s.originalURLToShortCode.Injective := by
  have hc := serve_consistent parseRequestURI calls Store.empty s h consistent_empty
  intro u₁ u₂ code h₁ h₂
  have e₁ := hc u₁ code h₁
  have e₂ := hc u₂ code h₂
  rw [e₁] at e₂
  exact Option.some.inj e₂

theorem reachable_codes_injective_witness :
    serve sampleParse Store.empty [callA, callB] = some storeAB ∧
    storeAB.originalURLToShortCode.Injective :=
  ⟨rfl, reachable_codes_injective sampleParse [callA, callB] storeAB rfl⟩

/-- C3 (in-memory, sequential). In a run from the empty store, once a shorten request for a
valid URL has returned, its response carries a short code, and after any further sequence of
served shorten requests the redirect handler, given any request with that code as path
value, redirects to exactly that URL (and leaves the store as it is). -/
theorem shorten_then_redirect (parseRequestURI : Parser) (url : String)
    (hvalid : isValidUrl parseRequestURI url = true)
    (before : List Call) (s₀ s₁ s₂ : Store)
    (h₀ : serve parseRequestURI Store.empty before = some s₀)
    (fuel : Nat) (rnd : RandSource) (resp : Response)
    (h₁ : handleShorten parseRequestURI fuel rnd s₀ (some ⟨url⟩) = some (resp, s₁))
    (later : List Call) (h₂ : serve parseRequestURI s₁ later = some s₂) :
    ∃ code status, resp = writeJSONResponse status (.shorten ⟨url, baseURL ++ code⟩) ∧
      ∀ r : Request, r.code = code →
        handleRedirect s₂ r = (Response.redirect url StatusFound, s₂) := by
  have hc := serve_consistent parseRequestURI before Store.empty s₀ h₀ consistent_empty
  obtain ⟨code, status, hresp, -, hback⟩ :=
    handleShorten_valid parseRequestURI fuel rnd s₀ s₁ url resp hvalid h₁
  refine ⟨code, status, hresp, ?_⟩
  have hkept := serve_keeps_code parseRequestURI later s₁ s₂ h₂ code url (hback hc)
  intro r hr
  simp [handleRedirect, hr, hkept]

theorem shorten_then_redirect_witness :
    isValidUrl sampleParse "http://a.io/x" = true ∧
    serve sampleParse Store.empty [] = some Store.empty ∧
    handleShorten sampleParse 1 (fun _ => 0) Store.empty (some ⟨"http://a.io/x"⟩) =
      some (writeJSONResponse StatusCreated
        (.shorten ⟨"http://a.io/x", "http://localhost:8080/00000"⟩), storeA) ∧
    serve sampleParse storeA [callB] = some storeAB ∧
    ∃ code status,
      writeJSONResponse StatusCreated
        (.shorten ⟨"http://a.io/x", "http://localhost:8080/00000"⟩) =
        writeJSONResponse status (.shorten ⟨"http://a.io/x", baseURL ++ code⟩) ∧
      ∀ r : Request, r.code = code →
        handleRedirect storeAB r = (Response.redirect "http://a.io/x" StatusFound, storeAB) :=
  ⟨by decide, rfl, rfl, rfl,
    shorten_then_redirect sampleParse "http://a.io/x" (by decide) [] Store.empty storeA
      storeAB rfl 1 (fun _ => 0) _ rfl [callB] rfl⟩

/-! ### Two requests at once -/

theorem runAlone_done (rnd : RandSource) (url : String) (n : Nat) (resp : Response)
    (s : Store) : runAlone rnd url n (.done resp, s) = (.done resp, s) := by
  induction n with
  | zero => rfl
  | succ n ih => simpa [runAlone, stepShorten] using ih

theorem runAlone_check (rnd : RandSource) (url : String) (s : Store) (fuel drawn : Nat)
    (code : String) (h : generateUniqueCodeFrom rnd s fuel drawn = some code) :
    runAlone rnd url (fuel + 1) (.check drawn, s) =
      (.done (writeJSONResponse StatusCreated (.shorten ⟨url, baseURL ++ code⟩)),
        { shortCodeToOriginalURL := s.shortCodeToOriginalURL.set code url,
          originalURLToShortCode := s.originalURLToShortCode.set url code }) := by
  induction fuel generalizing drawn with
  | zero => simp [generateUniqueCodeFrom] at h
  | succ n ih =>
    simp only [generateUniqueCodeFrom] at h
    split at h
    · rename_i hnone
      cases h
      rw [runAlone]
      simp only [stepShorten, hnone]
      rw [runAlone]
      simp only [stepShorten]
      exact runAlone_done rnd url n _ _
    · rename_i v hsome
      rw [runAlone]
      simp only [stepShorten, hsome]
      exact ih _ h

/-- The sections of `stepShorten`, taken in a row, are the handler run alone. -/
theorem runAlone_handleShorten (parseRequestURI : Parser) (fuel : Nat) (rnd : RandSource)
    (s s' : Store) (url : String) (resp : Response)
    (hvalid : isValidUrl parseRequestURI url = true)
    (h : handleShorten parseRequestURI fuel rnd s (some ⟨url⟩) = some (resp, s')) :
    runAlone rnd url (fuel + 2) (.lookup, s) = (.done resp, s') := by
  simp only [handleShorten, hvalid, Bool.not_true, Bool.false_eq_true, if_false] at h
  split at h
  · rename_i code hex
    cases h
    rw [runAlone]
    simp only [stepShorten, hex]
    exact runAlone_done rnd url _ _ _
  · rename_i hnone
    split at h
    · cases h
    · rename_i code hgen
      cases h
      rw [runAlone]
      simp only [stepShorten, hnone]
      exact runAlone_check rnd url s fuel 0 code hgen

/-- C6 (in-memory, two requests at once): the code at a failing schedule. Two shorten requests
for the same valid URL, not stored yet, alternate their lock-protected sections (lookup,
lookup, check, check, insert, insert); the first draws 0 five times, the second 1 five times.
Both answer 201, with different codes, and the final `shortCodeToOriginalURL` holds both
codes `00000` and `11111` for that one URL. -/
theorem two_requests_two_codes :
    isValidUrl sampleParse "http://a.io/x" = true ∧
    Store.empty.originalURLToShortCode "http://a.io/x" = none ∧
    (runPair (fun _ => 0) (fun _ => 1) "http://a.io/x" ⟨Store.empty, .lookup, .lookup⟩
      [true, false, true, false, true, false]).first =
      .done (writeJSONResponse StatusCreated
        (.shorten ⟨"http://a.io/x", "http://localhost:8080/00000"⟩)) ∧
    (runPair (fun _ => 0) (fun _ => 1) "http://a.io/x" ⟨Store.empty, .lookup, .lookup⟩
      [true, false, true, false, true, false]).second =
      .done (writeJSONResponse StatusCreated
        (.shorten ⟨"http://a.io/x", "http://localhost:8080/11111"⟩)) ∧
    (runPair (fun _ => 0) (fun _ => 1) "http://a.io/x" ⟨Store.empty, .lookup, .lookup⟩
      [true, false, true, false, true, false]).store.shortCodeToOriginalURL "00000" =
      some "http://a.io/x" ∧
    (runPair (fun _ => 0) (fun _ => 1) "http://a.io/x" ⟨Store.empty, .lookup, .lookup⟩
      [true, false, true, false, true, false]).store.shortCodeToOriginalURL "11111" =
      some "http://a.io/x" ∧
    "00000" ≠ "11111" := by
  refine ⟨by decide, rfl, by decide, by decide, by decide, by decide, by decide⟩

end Memory

namespace MySQL

/-! ## Persistent variant: the generator -/

/-- One pass of the generator's loop, by the answer to its existence check. -/
theorem generateUniqueCodeWithDBLoop_succ (db : DB) (rnd : RandSource) (n : Nat) (st : Run) :
    generateUniqueCodeWithDBLoop db rnd (n + 1) st =
      match db (st.issued ++ [.selectOne (candidate rnd st.drawn)]) with
      | .errNoRows =>
        ((candidate rnd st.drawn, none),
          ⟨st.issued ++ [.selectOne (candidate rnd st.drawn)], st.drawn + codeLength⟩)
      | .ok _ =>
        generateUniqueCodeWithDBLoop db rnd n
          ⟨st.issued ++ [.selectOne (candidate rnd st.drawn)], st.drawn + codeLength⟩
      | _ =>
        (("", some .checkFailed),
          ⟨st.issued ++ [.selectOne (candidate rnd st.drawn)], st.drawn + codeLength⟩) := by
  simp only [generateUniqueCodeWithDBLoop, issue]
  cases db (st.issued ++ [.selectOne (candidate rnd st.drawn)]) <;> rfl

/-- The generator sends existence checks only, at most one for each pass. -/
theorem generateUniqueCodeWithDBLoop_issued (db : DB) (rnd : RandSource) (n : Nat) (st : Run) :
    ∃ new, (generateUniqueCodeWithDBLoop db rnd n st).2.issued = st.issued ++ new ∧
      new.length ≤ n ∧ ∀ q ∈ new, q.isSelectOne = true := by
  induction n generalizing st with
  | zero => exact ⟨[], by simp [generateUniqueCodeWithDBLoop], by simp, by simp⟩
  | succ n ih =>
    rw [generateUniqueCodeWithDBLoop_succ]
    cases db (st.issued ++ [.selectOne (candidate rnd st.drawn)]) with
    | ok v =>
      obtain ⟨new, hnew, hlen, hall⟩ :=
        ih ⟨st.issued ++ [.selectOne (candidate rnd st.drawn)], st.drawn + codeLength⟩
      refine ⟨.selectOne (candidate rnd st.drawn) :: new, ?_, ?_, ?_⟩
      · simpa using hnew
      · simpa using hlen
      · intro q hq
        rcases List.mem_cons.mp hq with rfl | hq
        · rfl
        · exact hall q hq
    | errNoRows =>
      exact ⟨[.selectOne (candidate rnd st.drawn)], rfl, by simp, by simp [Stmt.isSelectOne]⟩
    | mysqlError k =>
      exact ⟨[.selectOne (candidate rnd st.drawn)], rfl, by simp, by simp [Stmt.isSelectOne]⟩
    | otherError =>
      exact ⟨[.selectOne (candidate rnd st.drawn)], rfl, by simp, by simp [Stmt.isSelectOne]⟩

/-- A code comes back without error only as the candidate of the last check sent, which the
database answered with no rows. -/
theorem generateUniqueCodeWithDBLoop_ok (db : DB) (rnd : RandSource) (n : Nat) (st : Run)
    (code : String) (h : (generateUniqueCodeWithDBLoop db rnd n st).1 = (code, none)) :
    (∃ k, code = candidate rnd k) ∧
    ∃ history, (generateUniqueCodeWithDBLoop db rnd n st).2.issued =
        history ++ [.selectOne code] ∧ db (history ++ [.selectOne code]) = .errNoRows := by
  induction n generalizing st with
  | zero => simp [generateUniqueCodeWithDBLoop] at h
  | succ n ih =>
    rw [generateUniqueCodeWithDBLoop_succ] at h ⊢
    cases hdb : db (st.issued ++ [.selectOne (candidate rnd st.drawn)]) with
    | ok v =>
      rw [hdb] at h
      exact ih _ h
    | errNoRows =>
      rw [hdb] at h
      simp only [Prod.mk.injEq, and_true] at h
      subst h
      exact ⟨⟨st.drawn, rfl⟩, st.issued, rfl, hdb⟩
    | mysqlError k =>
      rw [hdb] at h
      simp at h
    | otherError =>
      rw [hdb] at h
      simp at h

/-- An error of the generator comes with no code. -/
theorem generateUniqueCodeWithDBLoop_error (db : DB) (rnd : RandSource) (n : Nat) (st : Run)
    (code : String) (e : GenError)
    (h : (generateUniqueCodeWithDBLoop db rnd n st).1 = (code, some e)) : code = "" := by
  induction n generalizing st with
  | zero =>
    simp only [generateUniqueCodeWithDBLoop, Prod.mk.injEq] at h
    exact h.1.symm
  | succ n ih =>
    rw [generateUniqueCodeWithDBLoop_succ] at h
    cases hdb : db (st.issued ++ [.selectOne (candidate rnd st.drawn)]) with
    | ok v =>
      rw [hdb] at h
      exact ih _ h
    | errNoRows =>
      rw [hdb] at h
      simp at h
    | mysqlError k =>
      rw [hdb] at h
      simp only [Prod.mk.injEq] at h
      exact h.1.symm
    | otherError =>
      rw [hdb] at h
      simp only [Prod.mk.injEq] at h
      exact h.1.symm

/-- When each of the `n` checks is answered with an existing row, the generator sends exactly
those `n` checks and gives up. -/
theorem generateUniqueCodeWithDBLoop_exhausted (db : DB) (rnd : RandSource) (n : Nat) (st : Run)
    (h : ∀ k, k < n → ∃ v, db (st.issued ++ checks rnd st.drawn (k + 1)) = .ok v) :
    generateUniqueCodeWithDBLoop db rnd n st =
      (("", some .exhausted), ⟨st.issued ++ checks rnd st.drawn n, st.drawn + codeLength * n⟩) := by
  induction n generalizing st with
  | zero => simp [generateUniqueCodeWithDBLoop, checks]
  | succ n ih =>
    rw [generateUniqueCodeWithDBLoop_succ]
    obtain ⟨v, hv⟩ := h 0 (Nat.succ_pos n)
    simp only [checks] at hv
    rw [hv]
    simp only
    rw [ih]
    · simp only [checks, List.append_assoc, List.singleton_append, Run.mk.injEq, Prod.mk.injEq,
        true_and]
      rw [Nat.mul_succ]
      omega
    · intro k hk
      obtain ⟨w, hw⟩ := h (k + 1) (Nat.succ_lt_succ hk)
      refine ⟨w, ?_⟩
      simpa [checks] using hw

theorem checks_length (rnd : RandSource) (drawn n : Nat) : (checks rnd drawn n).length = n := by
  induction n generalizing drawn with
  | zero => rfl
  | succ n ih => simp [checks, ih]

/-! ## Persistent variant: the insert loop -/

/-- An attempt whose generator call fails: the loop returns 500 and sends nothing more. -/
theorem insertLoop_gen_error (db : DB) (rnd : RandSource) (url : String) (n : Nat) (st : Run)
    (code : String) (e : GenError)
    (h : (generateUniqueCodeWithDB db rnd st).1 = (code, some e)) :
    insertLoop db rnd url (n + 1) st =
      (.returned (writeJSONResponse StatusInternalServerError
        (.error "Failed to generate short URL code")), (generateUniqueCodeWithDB db rnd st).2) := by
  rcases hgen : generateUniqueCodeWithDB db rnd st with ⟨⟨c, err⟩, st₁⟩
  rw [hgen] at h
  simp only [Prod.mk.injEq] at h
  obtain ⟨rfl, rfl⟩ := h
  simp only [insertLoop, hgen]

/-- An attempt whose generator call gives a code, by the answer to the INSERT. -/
theorem insertLoop_gen_ok (db : DB) (rnd : RandSource) (url : String) (n : Nat) (st : Run)
    (code : String) (h : (generateUniqueCodeWithDB db rnd st).1 = (code, none)) :
    insertLoop db rnd url (n + 1) st =
      match db ((generateUniqueCodeWithDB db rnd st).2.issued ++ [.insert url code]) with
      | .ok _ =>
        (.left code, ⟨(generateUniqueCodeWithDB db rnd st).2.issued ++ [.insert url code],
          (generateUniqueCodeWithDB db rnd st).2.drawn⟩)
      | .mysqlError number =>
        if number = 1062 then
          insertLoop db rnd url n
            ⟨(generateUniqueCodeWithDB db rnd st).2.issued ++ [.insert url code],
              (generateUniqueCodeWithDB db rnd st).2.drawn⟩
        else
          (.returned (writeJSONResponse StatusInternalServerError (.error "Failed to store URL")),
            ⟨(generateUniqueCodeWithDB db rnd st).2.issued ++ [.insert url code],
              (generateUniqueCodeWithDB db rnd st).2.drawn⟩)
      | _ =>
        (.returned (writeJSONResponse StatusInternalServerError (.error "Failed to store URL")),
          ⟨(generateUniqueCodeWithDB db rnd st).2.issued ++ [.insert url code],
            (generateUniqueCodeWithDB db rnd st).2.drawn⟩) := by
  rcases hgen : generateUniqueCodeWithDB db rnd st with ⟨⟨c, err⟩, st₁⟩
  rw [hgen] at h
  simp only [Prod.mk.injEq] at h
  obtain ⟨rfl, rfl⟩ := h
  simp only [insertLoop, hgen, issue]
  cases db (st₁.issued ++ [.insert url c]) <;> rfl

/-- Where an element of `G ++ I :: R` lies. -/
theorem append_cons_eq_split {α : Type} (G : List α) (I : α) (R pre : List α) (q : α)
    (post : List α) (h : G ++ I :: R = pre ++ q :: post) :
    q ∈ G ∨ (pre = G ∧ q = I ∧ post = R) ∨ ∃ pre', pre = G ++ I :: pre' ∧ R = pre' ++ q :: post := by
  induction G generalizing pre with
  | nil =>
    cases pre with
    | nil =>
      simp only [List.nil_append, List.cons.injEq] at h
      exact Or.inr (Or.inl ⟨rfl, h.1.symm, h.2.symm⟩)
    | cons p pre' =>
      simp only [List.nil_append, List.cons_append, List.cons.injEq] at h
      exact Or.inr (Or.inr ⟨pre', by simp [h.1], h.2⟩)
  | cons g G ih =>
    cases pre with
    | nil =>
      simp only [List.cons_append, List.nil_append, List.cons.injEq] at h
      exact Or.inl (by simp [h.1])
    | cons p pre' =>
      simp only [List.cons_append, List.cons.injEq] at h
      rcases ih pre' h.2 with hmem | ⟨rfl, rfl, rfl⟩ | ⟨pre'', rfl, rfl⟩
      · exact Or.inl (List.mem_cons_of_mem _ hmem)
      · exact Or.inr (Or.inl ⟨by simp [h.1], rfl, rfl⟩)
      · exact Or.inr (Or.inr ⟨pre'', by simp [h.1], rfl⟩)

theorem not_insert_of_selectOne (q : Stmt) (h : q.isSelectOne = true) : q.isInsert = false := by
  cases q <;> simp_all [Stmt.isSelectOne, Stmt.isInsert]

/-- In the statements the loop sends, an INSERT the database accepts is the last one, it is
for the code the loop is left with, and that code has five characters. -/
theorem insertLoop_accepted (db : DB) (rnd : RandSource) (url : String) (n : Nat) (st : Run) :
    ∃ new, (insertLoop db rnd url n st).2.issued = st.issued ++ new ∧
      ∀ pre q post v, new = pre ++ q :: post → q.isInsert = true →
        db (st.issued ++ pre ++ [q]) = .ok v →
        post = [] ∧ ∃ code, q = .insert url code ∧
          (insertLoop db rnd url n st).1 = .left code ∧ code.length = codeLength := by
  induction n generalizing st with
  | zero =>
    refine ⟨[], by simp [insertLoop], ?_⟩
    intro pre q post v h
    simp at h
  | succ n ih =>
    obtain ⟨G, hG, -, hGall⟩ := generateUniqueCodeWithDBLoop_issued db rnd maxAttempts st
    rcases hgen : (generateUniqueCodeWithDB db rnd st).1 with ⟨code, _ | e⟩
    · -- the generator gave a code
      have hcand := (generateUniqueCodeWithDBLoop_ok db rnd maxAttempts st code hgen).1
      have hlen : code.length = codeLength := by
        obtain ⟨k, rfl⟩ := hcand
        exact candidate_length rnd k
      have hG' : (generateUniqueCodeWithDB db rnd st).2.issued = st.issued ++ G := hG
      rw [insertLoop_gen_ok db rnd url n st code hgen, hG']
      cases hdb : db (st.issued ++ G ++ [.insert url code]) with
      | ok v₀ =>
        refine ⟨G ++ [.insert url code], by simp, ?_⟩
        intro pre q post v hsplit hq _
        rcases append_cons_eq_split G _ [] pre q post hsplit with hmem | ⟨-, rfl, rfl⟩ | ⟨p, -, hp⟩
        · rw [not_insert_of_selectOne q (hGall q hmem)] at hq
          cases hq
        · exact ⟨rfl, code, rfl, rfl, hlen⟩
        · simp at hp
      | mysqlError number =>
        by_cases h1062 : number = 1062
        · simp only [h1062, if_true]
          obtain ⟨new, hnew, hacc⟩ := ih
            ⟨st.issued ++ G ++ [.insert url code], (generateUniqueCodeWithDB db rnd st).2.drawn⟩
          refine ⟨G ++ .insert url code :: new, by rw [hnew]; simp, ?_⟩
          intro pre q post v hsplit hq hok
          rcases append_cons_eq_split G _ new pre q post hsplit with
            hmem | ⟨rfl, rfl, rfl⟩ | ⟨p, rfl, hp⟩
          · rw [not_insert_of_selectOne q (hGall q hmem)] at hq
            cases hq
          · rw [hdb] at hok
            cases hok
          · refine hacc p q post v hp hq ?_
            simpa using hok
        · simp only [h1062, if_false]
          refine ⟨G ++ [.insert url code], by simp, ?_⟩
          intro pre q post v hsplit hq hok
          rcases append_cons_eq_split G _ [] pre q post hsplit with
            hmem | ⟨rfl, rfl, rfl⟩ | ⟨p, -, hp⟩
          · rw [not_insert_of_selectOne q (hGall q hmem)] at hq
            cases hq
          · rw [hdb] at hok
            cases hok
          · simp at hp
      | errNoRows =>
        refine ⟨G ++ [.insert url code], by simp, ?_⟩
        intro pre q post v hsplit hq hok
        rcases append_cons_eq_split G _ [] pre q post hsplit with
          hmem | ⟨rfl, rfl, rfl⟩ | ⟨p, -, hp⟩
        · rw [not_insert_of_selectOne q (hGall q hmem)] at hq
          cases hq
        · rw [hdb] at hok
          cases hok
        · simp at hp
      | otherError =>
        refine ⟨G ++ [.insert url code], by simp, ?_⟩
        intro pre q post v hsplit hq hok
        rcases append_cons_eq_split G _ [] pre q post hsplit with
          hmem | ⟨rfl, rfl, rfl⟩ | ⟨p, -, hp⟩
        · rw [not_insert_of_selectOne q (hGall q hmem)] at hq
          cases hq
        · rw [hdb] at hok
          cases hok
        · simp at hp
    · -- the generator failed
      rw [insertLoop_gen_error db rnd url n st code e hgen]
      refine ⟨G, hG, ?_⟩
      intro pre q post v hsplit hq _
      have hmem : q ∈ G := by
        rw [hsplit]
        simp
      rw [not_insert_of_selectOne q (hGall q hmem)] at hq
      cases hq

/-- A shorten request for a valid URL the lookup does not find: the handler is the loop of
five attempts and what follows it. -/
theorem handleShortenWithDB_miss (conf : Config) (parseRequestURI : Parser) (db : DB)
    (rnd : RandSource) (st : Run) (url : String)
    (hvalid : isValidUrl parseRequestURI url = true)
    (hmiss : db (st.issued ++ [.selectShortURL url]) = .errNoRows) :
    handleShortenWithDB conf parseRequestURI db rnd st (some ⟨url⟩) =
      match insertLoop db rnd url 5 ⟨st.issued ++ [.selectShortURL url], st.drawn⟩ with
      | (.returned resp, st') => (resp, st')
      | (.left shortCode, st') =>
        if shortCode = "" then
          (writeJSONResponse StatusInternalServerError (.error
            "Failed to generate and store unique short URL after multiple attempts"), st')
        else
          (writeJSONResponse StatusCreated (.shorten ⟨url, conf.BaseURL ++ shortCode⟩), st') := by
  simp only [handleShortenWithDB, hvalid, Bool.not_true, Bool.false_eq_true, if_false, issue,
    hmiss]

/-- A shorten request for a valid URL the lookup finds: 201 with the stored code. -/
theorem handleShortenWithDB_hit (conf : Config) (parseRequestURI : Parser) (db : DB)
    (rnd : RandSource) (st : Run) (url shortCode : String)
    (hvalid : isValidUrl parseRequestURI url = true)
    (hhit : db (st.issued ++ [.selectShortURL url]) = .ok shortCode) :
    handleShortenWithDB conf parseRequestURI db rnd st (some ⟨url⟩) =
      (writeJSONResponse StatusCreated (.shorten ⟨url, conf.BaseURL ++ shortCode⟩),
        ⟨st.issued ++ [.selectShortURL url], st.drawn⟩) := by
  simp only [handleShortenWithDB, hvalid, Bool.not_true, Bool.false_eq_true, if_false, issue,
    hhit]

/-- The statements a shorten request sends, and the state the loop ends in when it runs. -/
theorem handleShortenWithDB_issued (conf : Config) (parseRequestURI : Parser) (db : DB)
    (rnd : RandSource) (st : Run) (req : Option ShortenRequest) :
    (handleShortenWithDB conf parseRequestURI db rnd st req).2 = st ∨
    ∃ url, req = some ⟨url⟩ ∧
      ((handleShortenWithDB conf parseRequestURI db rnd st req).2 =
          ⟨st.issued ++ [.selectShortURL url], st.drawn⟩ ∨
       (db (st.issued ++ [.selectShortURL url]) = .errNoRows ∧
        isValidUrl parseRequestURI url = true ∧
        (handleShortenWithDB conf parseRequestURI db rnd st req).2 =
          (insertLoop db rnd url 5 ⟨st.issued ++ [.selectShortURL url], st.drawn⟩).2)) := by
  cases req with
  | none => exact Or.inl rfl
  | some r =>
    obtain ⟨url⟩ := r
    by_cases hvalid : isValidUrl parseRequestURI url = true
    · refine Or.inr ⟨url, rfl, ?_⟩
      cases hdb : db (st.issued ++ [.selectShortURL url]) with
      | ok v => exact Or.inl (by rw [handleShortenWithDB_hit conf _ db rnd st url v hvalid hdb])
      | errNoRows =>
        refine Or.inr ⟨rfl, hvalid, ?_⟩
        rw [handleShortenWithDB_miss conf _ db rnd st url hvalid hdb]
        generalize insertLoop db rnd url 5 ⟨st.issued ++ [.selectShortURL url], st.drawn⟩ = r
        rcases r with ⟨_ | c, st'⟩
        · rfl
        · by_cases hc : c = "" <;> simp [hc]
      | mysqlError k =>
        exact Or.inl (by
          simp only [handleShortenWithDB, hvalid, Bool.not_true, Bool.false_eq_true, if_false,
            issue, hdb])
      | otherError =>
        exact Or.inl (by
          simp only [handleShortenWithDB, hvalid, Bool.not_true, Bool.false_eq_true, if_false,
            issue, hdb])
    · refine Or.inl ?_
      simp only [Bool.not_eq_true] at hvalid
      simp [handleShortenWithDB, hvalid]

/-- The statements of the loop extend those sent before it. -/
theorem insertLoop_issued (db : DB) (rnd : RandSource) (url : String) (n : Nat) (st : Run) :
    ∃ new, (insertLoop db rnd url n st).2.issued = st.issued ++ new := by
  obtain ⟨new, hnew, -⟩ := insertLoop_accepted db rnd url n st
  exact ⟨new, hnew⟩

/-- The generator starts with the existence check of the candidate made of the next draws. -/
theorem generateUniqueCodeWithDB_first (db : DB) (rnd : RandSource) (st : Run) :
    ∃ new, (generateUniqueCodeWithDB db rnd st).2.issued =
      st.issued ++ .selectOne (candidate rnd st.drawn) :: new := by
  show ∃ new, (generateUniqueCodeWithDBLoop db rnd (19 + 1) st).2.issued = _
  rw [generateUniqueCodeWithDBLoop_succ]
  cases db (st.issued ++ [.selectOne (candidate rnd st.drawn)]) with
  | ok v =>
    obtain ⟨new, hnew, -⟩ := generateUniqueCodeWithDBLoop_issued db rnd 19
      ⟨st.issued ++ [.selectOne (candidate rnd st.drawn)], st.drawn + codeLength⟩
    exact ⟨new, by rw [hnew]; simp⟩
  | errNoRows => exact ⟨[], by simp⟩
  | mysqlError k => exact ⟨[], by simp⟩
  | otherError => exact ⟨[], by simp⟩

/-- An attempt starts with the generator. -/
theorem insertLoop_starts (db : DB) (rnd : RandSource) (url : String) (n : Nat) (st : Run) :
    ∃ new, (insertLoop db rnd url (n + 1) st).2.issued =
      (generateUniqueCodeWithDB db rnd st).2.issued ++ new ∧
      ∀ code, (generateUniqueCodeWithDB db rnd st).1 = (code, none) →
        ∃ new', new = .insert url code :: new' := by
  rcases hgen : (generateUniqueCodeWithDB db rnd st).1 with ⟨code, _ | e⟩
  · rw [insertLoop_gen_ok db rnd url n st code hgen]
    cases db ((generateUniqueCodeWithDB db rnd st).2.issued ++ [.insert url code]) with
    | ok v =>
      exact ⟨[.insert url code], rfl, fun c hc => ⟨[], by cases hc; rfl⟩⟩
    | mysqlError number =>
      by_cases h1062 : number = 1062
      · simp only [h1062, if_true]
        obtain ⟨new, hnew⟩ := insertLoop_issued db rnd url n
          ⟨(generateUniqueCodeWithDB db rnd st).2.issued ++ [.insert url code],
            (generateUniqueCodeWithDB db rnd st).2.drawn⟩
        exact ⟨.insert url code :: new, by rw [hnew]; simp, fun c hc => ⟨new, by cases hc; rfl⟩⟩
      · simp only [h1062, if_false]
        exact ⟨[.insert url code], rfl, fun c hc => ⟨[], by cases hc; rfl⟩⟩
    | errNoRows =>
      exact ⟨[.insert url code], rfl, fun c hc => ⟨[], by cases hc; rfl⟩⟩
    | otherError =>
      exact ⟨[.insert url code], rfl, fun c hc => ⟨[], by cases hc; rfl⟩⟩
  · rw [insertLoop_gen_error db rnd url n st code e hgen]
    exact ⟨[], by simp, fun c hc => by cases hc⟩

theorem length_five_ne_empty (code : String) (h : code.length = codeLength) : code ≠ "" := by
  rintro rfl
  simp [codeLength] at h

end MySQL

/-! ## Claims about both variants and about the persistent variant -/

open Memory MySQL

/-- What the validator rejects. -/
theorem isValidUrl_eq_false_iff (parseRequestURI : Parser) (url : String) :
    isValidUrl parseRequestURI url = false ↔
      parseRequestURI url = none ∨
        ∃ u, parseRequestURI url = some u ∧ (u.Scheme = "" ∨ u.Host = "") := by
  unfold isValidUrl
  cases h : parseRequestURI url with
  | none => simp
  | some u =>
    by_cases hu : u.Scheme = "" ∨ u.Host = ""
    · simp [hu]
    · simp only [hu, if_false, Bool.true_eq_false, false_iff]
      rintro (hv | ⟨v, hv, hempty⟩)
      · cases hv
      · cases hv
        exact hu hempty

/-- C4 (both variants). A shorten request whose URL the validator rejects (the parse fails,
or the scheme is empty, or the host is empty) is answered with status 400 and a JSON error,
and the handler returns with the store as it was: the in-memory handler leaves both maps
untouched, the persistent handler sends no statement at all, hence no INSERT. -/
theorem invalid_url_rejected (parseRequestURI : Parser) (url : String)
    (hinvalid : isValidUrl parseRequestURI url = false) :
    (parseRequestURI url = none ∨
      ∃ u, parseRequestURI url = some u ∧ (u.Scheme = "" ∨ u.Host = "")) ∧
    (∀ (fuel : Nat) (rnd : RandSource) (s : Store),
      handleShorten parseRequestURI fuel rnd s (some ⟨url⟩) =
        some (Response.json 400 (.error "Invalid URL provided"), s)) ∧
    (∀ (conf : Config) (db : DB) (rnd : RandSource) (st : Run),
      handleShortenWithDB conf parseRequestURI db rnd st (some ⟨url⟩) =
        (Response.json 400 (.error "Invalid URL provided"), st)) := by
  refine ⟨(isValidUrl_eq_false_iff parseRequestURI url).mp hinvalid, ?_, ?_⟩
  · intro fuel rnd s
    simp [handleShorten, hinvalid, writeJSONResponse, StatusBadRequest]
  · intro conf db rnd st
    simp [handleShortenWithDB, hinvalid, writeJSONResponse, StatusBadRequest]

theorem invalid_url_rejected_witness :
    isValidUrl sampleParse "http:///z" = false ∧
    handleShorten sampleParse 1 (fun _ => 0) storeA (some ⟨"http:///z"⟩) =
      some (Response.json 400 (.error "Invalid URL provided"), storeA) ∧
    handleShortenWithDB mainConf sampleParse (tableDB []) (fun _ => 0) ⟨[], 0⟩
        (some ⟨"http:///z"⟩) =
      (Response.json 400 (.error "Invalid URL provided"), ⟨[], 0⟩) :=
  ⟨by decide,
    (invalid_url_rejected sampleParse "http:///z" (by decide)).2.1 1 (fun _ => 0) storeA,
    (invalid_url_rejected sampleParse "http:///z" (by decide)).2.2 mainConf (tableDB [])
      (fun _ => 0) ⟨[], 0⟩⟩

/-- C5 (persistent variant): the code at a failing input. The table holds the row
(`http://a.io/x`, `abcde`); a shorten request for that valid URL finds the stored code by the
lookup, sends nothing else, and is answered with status 201, not 200. -/
theorem existing_url_answered_201 :
    isValidUrl sampleParse "http://a.io/x" = true ∧
    tableDB [("http://a.io/x", "abcde")] [.selectShortURL "http://a.io/x"] = .ok "abcde" ∧
    handleShortenWithDB mainConf sampleParse (tableDB [("http://a.io/x", "abcde")]) (fun _ => 0)
        ⟨[], 0⟩ (some ⟨"http://a.io/x"⟩) =
      (Response.json 201 (.shorten ⟨"http://a.io/x", "http://localhost:8080/abcde"⟩),
        ⟨[.selectShortURL "http://a.io/x"], 0⟩) := by
  refine ⟨by decide, by decide, by decide⟩

/-- C7 (persistent variant). For every behaviour of the database and every random source:
the generator sends existence checks only, at most 20 of them; a code returned without error
is the candidate of the last check sent, which the database answered with no rows; when each
of the 20 checks is answered with an existing row, the generator returns the exhaustion
error and the empty code after exactly those 20 checks; and whenever the generator returns
an error, the attempt of the handler that called it ends the loop with status 500 in the
state the generator left, so that nothing, and no INSERT, is sent after the failed
generation; when that happens at the first attempt the request as a whole is answered 500
and has sent the lookup and existence checks only. -/
theorem generator_bounded (db : DB) (rnd : RandSource) :
    (∀ st : Run, ∃ new, (generateUniqueCodeWithDB db rnd st).2.issued = st.issued ++ new ∧
      new.length ≤ 20 ∧ ∀ q ∈ new, q.isSelectOne = true) ∧
    (∀ (st : Run) (code : String), (generateUniqueCodeWithDB db rnd st).1 = (code, none) →
      ∃ history, (generateUniqueCodeWithDB db rnd st).2.issued = history ++ [.selectOne code] ∧
        db (history ++ [.selectOne code]) = .errNoRows) ∧
    (∀ st : Run, (∀ k, k < 20 → ∃ v, db (st.issued ++ checks rnd st.drawn (k + 1)) = .ok v) →
      (generateUniqueCodeWithDB db rnd st).1 = ("", some .exhausted) ∧
      (generateUniqueCodeWithDB db rnd st).2.issued = st.issued ++ checks rnd st.drawn 20 ∧
      (checks rnd st.drawn 20).length = 20) ∧
    (∀ (st : Run) (url : String) (n : Nat) (code : String) (e : GenError),
      (generateUniqueCodeWithDB db rnd st).1 = (code, some e) →
      code = "" ∧
      insertLoop db rnd url (n + 1) st =
        (.returned (Response.json 500 (.error "Failed to generate short URL code")),
          (generateUniqueCodeWithDB db rnd st).2)) ∧
    (∀ (conf : Config) (parseRequestURI : Parser) (st : Run) (url code : String) (e : GenError),
      isValidUrl parseRequestURI url = true →
      db (st.issued ++ [.selectShortURL url]) = .errNoRows →
      (generateUniqueCodeWithDB db rnd ⟨st.issued ++ [.selectShortURL url], st.drawn⟩).1 =
        (code, some e) →
      (handleShortenWithDB conf parseRequestURI db rnd st (some ⟨url⟩)).1 =
        Response.json 500 (.error "Failed to generate short URL code") ∧
      ∃ new, (handleShortenWithDB conf parseRequestURI db rnd st (some ⟨url⟩)).2.issued =
          st.issued ++ .selectShortURL url :: new ∧ ∀ q ∈ new, q.isInsert = false) := by
  refine ⟨?_, ?_, ?_, ?_, ?_⟩
  · intro st
    exact generateUniqueCodeWithDBLoop_issued db rnd maxAttempts st
  · intro st code h
    exact (generateUniqueCodeWithDBLoop_ok db rnd maxAttempts st code h).2
  · intro st h
    have hex := generateUniqueCodeWithDBLoop_exhausted db rnd maxAttempts st h
    unfold generateUniqueCodeWithDB
    rw [hex]
    exact ⟨rfl, rfl, checks_length rnd st.drawn 20⟩
  · intro st url n code e h
    exact ⟨generateUniqueCodeWithDBLoop_error db rnd maxAttempts st code e h,
      insertLoop_gen_error db rnd url n st code e h⟩
  · intro conf parseRequestURI st url code e hvalid hmiss hgen
    rw [handleShortenWithDB_miss conf parseRequestURI db rnd st url hvalid hmiss,
      insertLoop_gen_error db rnd url 4 _ code e hgen]
    refine ⟨rfl, ?_⟩
    obtain ⟨new, hnew, -, hall⟩ := generateUniqueCodeWithDBLoop_issued db rnd maxAttempts
      ⟨st.issued ++ [.selectShortURL url], st.drawn⟩
    refine ⟨new, ?_, fun q hq => not_insert_of_selectOne q (hall q hq)⟩
    show (generateUniqueCodeWithDBLoop db rnd maxAttempts _).2.issued = _
    rw [hnew]
    simp

theorem generator_bounded_witness :
    (∀ k, k < 20 → ∃ v, fullDB (([] : List Stmt) ++ checks (fun _ => 0) 0 (k + 1)) = .ok v) ∧
    isValidUrl sampleParse "http://a.io/x" = true ∧
    fullDB ([] ++ [.selectShortURL "http://a.io/x"]) = .errNoRows ∧
    (generateUniqueCodeWithDB fullDB (fun _ => 0) ⟨[], 0⟩).1 = ("", some .exhausted) ∧
    (generateUniqueCodeWithDB fullDB (fun _ => 0) ⟨[], 0⟩).2.issued =
      [] ++ checks (fun _ => 0) 0 20 ∧
    (handleShortenWithDB mainConf sampleParse fullDB (fun _ => 0) ⟨[], 0⟩
      (some ⟨"http://a.io/x"⟩)).1 =
      Response.json 500 (.error "Failed to generate short URL code") ∧
    ("" = "" ∧ insertLoop fullDB (fun _ => 0) "http://a.io/x" (4 + 1) ⟨[], 0⟩ =
      (.returned (Response.json 500 (.error "Failed to generate short URL code")),
        (generateUniqueCodeWithDB fullDB (fun _ => 0) ⟨[], 0⟩).2)) ∧
    (generateUniqueCodeWithDB (racingDB 3) (fun _ => 0) ⟨[], 0⟩).1 = ("00000", none) ∧
    (∃ history, (generateUniqueCodeWithDB (racingDB 3) (fun _ => 0) ⟨[], 0⟩).2.issued =
        history ++ [.selectOne "00000"] ∧
      racingDB 3 (history ++ [.selectOne "00000"]) = .errNoRows) :=
  have hfull : ∀ k, k < 20 →
      ∃ v, fullDB (([] : List Stmt) ++ checks (fun _ => 0) 0 (k + 1)) = .ok v := by
    intro k hk
    interval_cases k <;> exact ⟨"1", rfl⟩
  ⟨hfull, by decide, by decide,
    ((generator_bounded fullDB (fun _ => 0)).2.2.1 ⟨[], 0⟩ hfull).1,
    ((generator_bounded fullDB (fun _ => 0)).2.2.1 ⟨[], 0⟩ hfull).2.1,
    ((generator_bounded fullDB (fun _ => 0)).2.2.2.2 mainConf sampleParse ⟨[], 0⟩
      "http://a.io/x" "" .exhausted (by decide) (by decide) (by decide)).1,
    (generator_bounded fullDB (fun _ => 0)).2.2.2.1 ⟨[], 0⟩ "http://a.io/x" 4 "" .exhausted
      (by decide),
    by decide,
    (generator_bounded (racingDB 3) (fun _ => 0)).2.1 ⟨[], 0⟩ "00000" (by decide)⟩

/-- C8 (persistent variant), as amended. For every behaviour of the database and every
random source: when the INSERT of a generated code is answered with MySQL error 1062 and at
least one of the five attempts is left, the loop does not return: it goes on with the next
attempt, which starts with the existence check of a candidate made of fresh draws and, when
the generator returns a code, sends the INSERT of that code. When no attempt is left (the
fifth INSERT is answered 1062) the loop ends with no code, and a loop that ends with no code
makes the handler answer 500. And for every run of the handler in which an INSERT is
accepted, that INSERT is the last statement sent, it is for the requested URL, and the
response is 201 carrying exactly its code. -/
theorem duplicate_insert_retried (db : DB) (rnd : RandSource) :
    (∀ (url : String) (n : Nat) (st : Run) (code : String),
      (generateUniqueCodeWithDB db rnd st).1 = (code, none) →
      db ((generateUniqueCodeWithDB db rnd st).2.issued ++ [.insert url code]) =
        .mysqlError 1062 →
      insertLoop db rnd url (n + 2) st =
        insertLoop db rnd url (n + 1)
          ⟨(generateUniqueCodeWithDB db rnd st).2.issued ++ [.insert url code],
            (generateUniqueCodeWithDB db rnd st).2.drawn⟩ ∧
      (∃ new, (insertLoop db rnd url (n + 2) st).2.issued =
        (generateUniqueCodeWithDB db rnd st).2.issued ++ .insert url code ::
          .selectOne (candidate rnd (generateUniqueCodeWithDB db rnd st).2.drawn) :: new) ∧
      (∀ code', (generateUniqueCodeWithDB db rnd
          ⟨(generateUniqueCodeWithDB db rnd st).2.issued ++ [.insert url code],
            (generateUniqueCodeWithDB db rnd st).2.drawn⟩).1 = (code', none) →
        ∃ new, (insertLoop db rnd url (n + 2) st).2.issued =
          (generateUniqueCodeWithDB db rnd
            ⟨(generateUniqueCodeWithDB db rnd st).2.issued ++ [.insert url code],
              (generateUniqueCodeWithDB db rnd st).2.drawn⟩).2.issued ++
            .insert url code' :: new)) ∧
    (∀ (url : String) (st : Run) (code : String),
      (generateUniqueCodeWithDB db rnd st).1 = (code, none) →
      db ((generateUniqueCodeWithDB db rnd st).2.issued ++ [.insert url code]) =
        .mysqlError 1062 →
      insertLoop db rnd url 1 st =
        (.left "", ⟨(generateUniqueCodeWithDB db rnd st).2.issued ++ [.insert url code],
          (generateUniqueCodeWithDB db rnd st).2.drawn⟩)) ∧
    (∀ (conf : Config) (parseRequestURI : Parser) (st st' : Run) (url : String),
      isValidUrl parseRequestURI url = true →
      db (st.issued ++ [.selectShortURL url]) = .errNoRows →
      insertLoop db rnd url 5 ⟨st.issued ++ [.selectShortURL url], st.drawn⟩ = (.left "", st') →
      handleShortenWithDB conf parseRequestURI db rnd st (some ⟨url⟩) =
        (Response.json 500 (.error
          "Failed to generate and store unique short URL after multiple attempts"), st')) ∧
    (∀ (conf : Config) (parseRequestURI : Parser) (st : Run) (url : String)
      (pre : List Stmt) (q : Stmt) (post : List Stmt) (v : String),
      (handleShortenWithDB conf parseRequestURI db rnd st (some ⟨url⟩)).2.issued =
        st.issued ++ pre ++ q :: post →
      q.isInsert = true →
      db (st.issued ++ pre ++ [q]) = .ok v →
      post = [] ∧ ∃ code, q = .insert url code ∧
        (handleShortenWithDB conf parseRequestURI db rnd st (some ⟨url⟩)).1 =
          Response.json 201 (.shorten ⟨url, conf.BaseURL ++ code⟩)) := by
  refine ⟨?_, ?_, ?_, ?_⟩
  · intro url n st code hgen hdup
    have hstep : insertLoop db rnd url (n + 2) st =
        insertLoop db rnd url (n + 1)
          ⟨(generateUniqueCodeWithDB db rnd st).2.issued ++ [.insert url code],
            (generateUniqueCodeWithDB db rnd st).2.drawn⟩ := by
      rw [insertLoop_gen_ok db rnd url (n + 1) st code hgen, hdup]
      simp
    refine ⟨hstep, ?_, ?_⟩
    · obtain ⟨new, hnew, -⟩ := insertLoop_starts db rnd url n
        ⟨(generateUniqueCodeWithDB db rnd st).2.issued ++ [.insert url code],
          (generateUniqueCodeWithDB db rnd st).2.drawn⟩
      obtain ⟨new', hfirst⟩ := generateUniqueCodeWithDB_first db rnd
        ⟨(generateUniqueCodeWithDB db rnd st).2.issued ++ [.insert url code],
          (generateUniqueCodeWithDB db rnd st).2.drawn⟩
      refine ⟨new' ++ new, ?_⟩
      rw [hstep, hnew, hfirst]
      simp
    · intro code' hgen'
      obtain ⟨new, hnew, hins⟩ := insertLoop_starts db rnd url n
        ⟨(generateUniqueCodeWithDB db rnd st).2.issued ++ [.insert url code],
          (generateUniqueCodeWithDB db rnd st).2.drawn⟩
      obtain ⟨new', rfl⟩ := hins code' hgen'
      exact ⟨new', by rw [hstep, hnew]⟩
  · intro url st code hgen hdup
    rw [insertLoop_gen_ok db rnd url 0 st code hgen, hdup]
    simp [insertLoop]
  · intro conf parseRequestURI st st' url hvalid hmiss hloop
    rw [handleShortenWithDB_miss conf parseRequestURI db rnd st url hvalid hmiss, hloop]
    rfl
  · intro conf parseRequestURI st url pre q post v htrace hq hok
    rcases handleShortenWithDB_issued conf parseRequestURI db rnd st (some ⟨url⟩) with
      hsame | ⟨url', hurl, hlookup | ⟨hmiss, hvalid, hloop⟩⟩
    · -- nothing was sent
      rw [hsame] at htrace
      have := congrArg List.length htrace
      simp at this
    · -- the lookup only
      cases hurl
      rw [hlookup] at htrace
      simp only [List.append_assoc, List.append_cancel_left_eq] at htrace
      cases pre with
      | nil =>
        simp only [List.nil_append, List.cons.injEq] at htrace
        rw [← htrace.1] at hq
        cases hq
      | cons p pre' =>
        simp at htrace
    · -- the loop ran
      cases hurl
      obtain ⟨new, hnew, hacc⟩ := insertLoop_accepted db rnd url 5
        ⟨st.issued ++ [.selectShortURL url], st.drawn⟩
      rw [hloop, hnew] at htrace
      simp only [List.append_assoc, List.append_cancel_left_eq, List.singleton_append] at htrace
      cases pre with
      | nil =>
        simp only [List.nil_append, List.cons.injEq] at htrace
        rw [← htrace.1] at hq
        cases hq
      | cons p pre' =>
        simp only [List.cons_append, List.cons.injEq] at htrace
        obtain ⟨rfl, hsplit⟩ := htrace
        obtain ⟨hpost, code, hcode, hleft, hlen⟩ := hacc pre' q post v hsplit hq
          (by simpa using hok)
        refine ⟨hpost, code, hcode, ?_⟩
        rw [handleShortenWithDB_miss conf parseRequestURI db rnd st url hvalid hmiss]
        rcases hr : insertLoop db rnd url 5 ⟨st.issued ++ [.selectShortURL url], st.drawn⟩ with
          ⟨ex, st'⟩
        rw [hr] at hleft
        simp only at hleft
        subst hleft
        simp [hr, length_five_ne_empty code hlen, writeJSONResponse, StatusCreated]

/-- C8, the claim as stated fails: the lookup finds nothing, every existence check reports
the code absent and every INSERT is answered with error 1062. After the fifth INSERT the
handler does not generate another code: the request fails with status 500. -/
theorem five_duplicates_fail :
    isValidUrl sampleParse "http://a.io/x" = true ∧
    racingDB 11 [.selectShortURL "http://a.io/x",
      .selectOne "00000", .insert "http://a.io/x" "00000",
      .selectOne "11111", .insert "http://a.io/x" "11111",
      .selectOne "22222", .insert "http://a.io/x" "22222",
      .selectOne "33333", .insert "http://a.io/x" "33333",
      .selectOne "44444", .insert "http://a.io/x" "44444"] = .mysqlError 1062 ∧
    handleShortenWithDB mainConf sampleParse (racingDB 11) (fun i => i / 5) ⟨[], 0⟩
        (some ⟨"http://a.io/x"⟩) =
      (Response.json 500 (.error
        "Failed to generate and store unique short URL after multiple attempts"),
        ⟨[.selectShortURL "http://a.io/x",
          .selectOne "00000", .insert "http://a.io/x" "00000",
          .selectOne "11111", .insert "http://a.io/x" "11111",
          .selectOne "22222", .insert "http://a.io/x" "22222",
          .selectOne "33333", .insert "http://a.io/x" "33333",
          .selectOne "44444", .insert "http://a.io/x" "44444"], 25⟩) := by
  refine ⟨by decide, by decide, by decide⟩

theorem duplicate_insert_retried_witness :
    (generateUniqueCodeWithDB (racingDB 3) (fun i => i / 5)
      ⟨[.selectShortURL "http://a.io/x"], 0⟩).1 = ("00000", none) ∧
    racingDB 3 ((generateUniqueCodeWithDB (racingDB 3) (fun i => i / 5)
      ⟨[.selectShortURL "http://a.io/x"], 0⟩).2.issued ++
        [.insert "http://a.io/x" "00000"]) = .mysqlError 1062 ∧
    (handleShortenWithDB mainConf sampleParse (racingDB 3) (fun i => i / 5) ⟨[], 0⟩
      (some ⟨"http://a.io/x"⟩)).2.issued =
      [] ++ [.selectShortURL "http://a.io/x", .selectOne "00000",
        .insert "http://a.io/x" "00000", .selectOne "11111"] ++
        .insert "http://a.io/x" "11111" :: [] ∧
    racingDB 3 ([] ++ [.selectShortURL "http://a.io/x", .selectOne "00000",
        .insert "http://a.io/x" "00000", .selectOne "11111"] ++
        [.insert "http://a.io/x" "11111"]) = .ok "" ∧
    insertLoop (racingDB 3) (fun i => i / 5) "http://a.io/x" 5
        ⟨[.selectShortURL "http://a.io/x"], 0⟩ =
      insertLoop (racingDB 3) (fun i => i / 5) "http://a.io/x" 4
        ⟨(generateUniqueCodeWithDB (racingDB 3) (fun i => i / 5)
            ⟨[.selectShortURL "http://a.io/x"], 0⟩).2.issued ++
            [.insert "http://a.io/x" "00000"],
          (generateUniqueCodeWithDB (racingDB 3) (fun i => i / 5)
            ⟨[.selectShortURL "http://a.io/x"], 0⟩).2.drawn⟩ ∧
    (([] : List Stmt) = [] ∧ ∃ code, Stmt.insert "http://a.io/x" "11111" =
        .insert "http://a.io/x" code ∧
      (handleShortenWithDB mainConf sampleParse (racingDB 3) (fun i => i / 5) ⟨[], 0⟩
        (some ⟨"http://a.io/x"⟩)).1 =
        Response.json 201 (.shorten ⟨"http://a.io/x", mainConf.BaseURL ++ code⟩)) ∧
    insertLoop (racingDB 3) (fun i => i / 5) "http://a.io/x" 1
        ⟨[.selectShortURL "http://a.io/x"], 0⟩ =
      (.left "", ⟨(generateUniqueCodeWithDB (racingDB 3) (fun i => i / 5)
            ⟨[.selectShortURL "http://a.io/x"], 0⟩).2.issued ++
            [.insert "http://a.io/x" "00000"],
          (generateUniqueCodeWithDB (racingDB 3) (fun i => i / 5)
            ⟨[.selectShortURL "http://a.io/x"], 0⟩).2.drawn⟩) ∧
    handleShortenWithDB mainConf sampleParse (racingDB 11) (fun i => i / 5) ⟨[], 0⟩
        (some ⟨"http://a.io/x"⟩) =
      (Response.json 500 (.error
        "Failed to generate and store unique short URL after multiple attempts"),
        (insertLoop (racingDB 11) (fun i => i / 5) "http://a.io/x" 5
          ⟨[] ++ [.selectShortURL "http://a.io/x"], 0⟩).2) :=
  ⟨by decide, by decide, by decide, by decide,
    ((duplicate_insert_retried (racingDB 3) (fun i => i / 5)).1 "http://a.io/x" 3
      ⟨[.selectShortURL "http://a.io/x"], 0⟩ "00000" (by decide) (by decide)).1,
    (duplicate_insert_retried (racingDB 3) (fun i => i / 5)).2.2.2 mainConf sampleParse ⟨[], 0⟩
      "http://a.io/x" [.selectShortURL "http://a.io/x", .selectOne "00000",
        .insert "http://a.io/x" "00000", .selectOne "11111"]
      (.insert "http://a.io/x" "11111") [] "" (by decide) (by decide) (by decide),
    (duplicate_insert_retried (racingDB 3) (fun i => i / 5)).2.1 "http://a.io/x"
      ⟨[.selectShortURL "http://a.io/x"], 0⟩ "00000" (by decide) (by decide),
    (duplicate_insert_retried (racingDB 11) (fun i => i / 5)).2.2.1 mainConf sampleParse ⟨[], 0⟩
      _ "http://a.io/x" (by decide) (by decide) (by decide)⟩

/-- A table without a row for the code answers the redirect lookup with no rows. -/
theorem tableDB_unknown (rows : List (String × String)) (code : String)
    (h : ∀ r ∈ rows, r.2 ≠ code) :
    tableDB rows ([] ++ [.selectOriginalURL code]) = .errNoRows := by
  have hfind : rows.find? (fun r => decide (r.2 = code)) = none := by
    rw [List.find?_eq_none]
    intro r hr
    simpa using h r hr
  simp [tableDB, answer, hfind]

/-- For a code with no stored mapping, and a request path that has no `..` element and
does not end in `/index.html`, the redirect handlers answer from the not-found page and
leave the store as it is: the in-memory handler returns the maps untouched; the persistent
handler, told by the database that no row matches, has sent the one SELECT and nothing
else, and a table that holds no row for the code gives that answer. -/
theorem unknown_code_page_served (r : Request)
    (hdots : containsDotDot r.Path = false) (hindex : endsInIndexPage r.Path = false) :
    (∀ s : Store, s.shortCodeToOriginalURL r.code = none →
      handleRedirect s r = (Response.serveFile "../static/notFound.html", s)) ∧
    (∀ (conf : Config) (db : DB) (st : Run),
      db (st.issued ++ [.selectOriginalURL r.code]) = .errNoRows →
      handleRedirectWithDB conf db st r =
        (Response.serveFile conf.NotFoundPath,
          ⟨st.issued ++ [.selectOriginalURL r.code], st.drawn⟩)) ∧
    (∀ (conf : Config) (rows : List (String × String)),
      (∀ row ∈ rows, row.2 ≠ r.code) →
      handleRedirectWithDB conf (tableDB rows) ⟨[], 0⟩ r =
        (Response.serveFile conf.NotFoundPath, ⟨[.selectOriginalURL r.code], 0⟩)) := by
  refine ⟨?_, ?_, ?_⟩
  · intro s h
    simp [handleRedirect, ServeFile, hdots, hindex, h]
  · intro conf db st h
    simp [handleRedirectWithDB, ServeFile, hdots, hindex, issue, h]
  · intro conf rows h
    have := tableDB_unknown rows r.code h
    simp only [List.nil_append] at this
    simp [handleRedirectWithDB, ServeFile, hdots, hindex, issue, this]

/-- The not-found page is served for the unknown code `zzzzz` in both variants. -/
theorem unknown_code_page_served_zzzzz :
    handleRedirect storeA (routed "zzzzz") =
      (Response.serveFile "../static/notFound.html", storeA) ∧
    handleRedirectWithDB mainConf (tableDB [("http://a.io/x", "00000")]) ⟨[], 0⟩
        (routed "zzzzz") =
      (Response.serveFile "../static/notFound.html", ⟨[.selectOriginalURL "zzzzz"], 0⟩) :=
  ⟨(unknown_code_page_served (routed "zzzzz") (by decide) (by decide)).1 storeA (by decide),
    (unknown_code_page_served (routed "zzzzz") (by decide) (by decide)).2.2 mainConf
      [("http://a.io/x", "00000")] (by decide)⟩

/-- The not-found branch answers neither with a 500 error nor with a redirect to a stored
URL: whatever the request, what `http.ServeFile` writes is the 400 rejection, the redirect
to `./` or the file. -/
theorem ServeFile_cases (r : Request) (name : String) :
    ServeFile r name = Response.error "invalid URL path" 400 ∨
    ServeFile r name = Response.redirect "./" 301 ∨
    ServeFile r name = Response.serveFile name := by
  unfold ServeFile
  split
  · exact Or.inl rfl
  · split
    · exact Or.inr (Or.inl rfl)
    · exact Or.inr (Or.inr rfl)

/-- C9 (both variants): the code at a failing input. `GET /index.html` reaches the redirect
handler through the route `GET /{code}` with the code `index.html`, which has no stored
mapping. The handler takes its not-found branch, and there `http.ServeFile`, given a request
whose path ends in `/index.html`, answers with a 301 redirect to `./` and not with the
not-found page. The store is left as it is (in the persistent variant the one SELECT was
sent). -/
theorem unknown_index_html_redirected :
    storeA.shortCodeToOriginalURL "index.html" = none ∧
    routed "index.html" = ⟨"/index.html", "index.html"⟩ ∧
    handleRedirect storeA (routed "index.html") =
      (Response.redirect "./" 301, storeA) ∧
    tableDB [("http://a.io/x", "00000")] [.selectOriginalURL "index.html"] = .errNoRows ∧
    handleRedirectWithDB mainConf (tableDB [("http://a.io/x", "00000")]) ⟨[], 0⟩
        (routed "index.html") =
      (Response.redirect "./" 301, ⟨[.selectOriginalURL "index.html"], 0⟩) := by
  refine ⟨by decide, by decide, rfl, by decide, by decide⟩

/-- The symbols of `base62` are the digits and the letters of both cases. -/
theorem mem_base62_iff (ch : Char) : ch ∈ base62.data ↔ ch.isAlphanum = true := by
  constructor
  · intro h
    revert ch
    decide
  · intro h
    have hval : (48 ≤ ch.toNat ∧ ch.toNat ≤ 57) ∨ (65 ≤ ch.toNat ∧ ch.toNat ≤ 90) ∨
        (97 ≤ ch.toNat ∧ ch.toNat ≤ 122) := by
      simp only [Char.isAlphanum, Char.isAlpha, Char.isUpper, Char.isLower, Char.isDigit,
        Bool.or_eq_true, Bool.and_eq_true, decide_eq_true_eq, UInt32.le_def, Fin.le_def] at h
      simp only [Char.toNat, UInt32.toNat]
      rcases h with (⟨h₁, h₂⟩ | ⟨h₁, h₂⟩) | ⟨h₁, h₂⟩
      · exact Or.inr (Or.inl ⟨h₁, h₂⟩)
      · exact Or.inr (Or.inr ⟨h₁, h₂⟩)
      · exact Or.inl ⟨h₁, h₂⟩
    have hch : ch = Char.ofNat ch.toNat := (Char.ofNat_toNat ch).symm
    rw [hch]
    rcases hval with ⟨h₁, h₂⟩ | ⟨h₁, h₂⟩ | ⟨h₁, h₂⟩ <;>
      interval_cases ch.toNat <;> decide

/-- C10 (both variants). For every random source and every store content, a code returned
by the in-memory generator, and a code returned without error by the persistent generator,
has exactly 5 characters, each of them a symbol of `base62`; `base62` has exactly 62
symbols, pairwise distinct, and they are the characters `0-9`, `A-Z`, `a-z`. -/
theorem generated_code_shape :
    (∀ (fuel : Nat) (rnd : RandSource) (s : Store) (code : String),
      generateUniqueCode fuel rnd s = some code →
      code.length = 5 ∧ ∀ ch ∈ code.data, ch ∈ base62.data) ∧
    (∀ (db : DB) (rnd : RandSource) (st : Run) (code : String),
      (generateUniqueCodeWithDB db rnd st).1 = (code, none) →
      code.length = 5 ∧ ∀ ch ∈ code.data, ch ∈ base62.data) ∧
    len base62 = 62 ∧ base62.data.Nodup ∧
    (∀ ch : Char, ch ∈ base62.data ↔ ch.isAlphanum = true) := by
  refine ⟨?_, ?_, by decide, by decide, mem_base62_iff⟩
  · intro fuel rnd s code h
    obtain ⟨-, k, rfl⟩ := generateUniqueCodeFrom_some rnd s fuel 0 code h
    exact ⟨candidate_length rnd k, fun ch hch => candidate_mem_base62 rnd k ch hch⟩
  · intro db rnd st code h
    obtain ⟨⟨k, rfl⟩, -⟩ := generateUniqueCodeWithDBLoop_ok db rnd maxAttempts st code h
    exact ⟨candidate_length rnd k, fun ch hch => candidate_mem_base62 rnd k ch hch⟩

theorem generated_code_shape_witness :
    generateUniqueCode 2 (fun i => if i < 5 then 0 else 61) storeA = some "zzzzz" ∧
    (generateUniqueCodeWithDB (tableDB [("http://a.io/x", "00000")])
      (fun i => if i < 5 then 0 else 61) ⟨[], 0⟩).1 = ("zzzzz", none) ∧
    ("zzzzz".length = 5 ∧ ∀ ch ∈ "zzzzz".data, ch ∈ base62.data) ∧
    ("zzzzz".length = 5 ∧ ∀ ch ∈ "zzzzz".data, ch ∈ base62.data) :=
  ⟨by decide, by decide,
    generated_code_shape.1 2 (fun i => if i < 5 then 0 else 61) storeA "zzzzz" (by decide),
    generated_code_shape.2.1 (tableDB [("http://a.io/x", "00000")])
      (fun i => if i < 5 then 0 else 61) ⟨[], 0⟩ "zzzzz" (by decide)⟩

end UrlShortener
